import Mathlib

/-!
Shallow embedding of the candidate search-and-scoring engine of
`src/core/youtube_searcher.py` (class `YouTubeMusicSearcher`).

Modelling conventions:
* Python strings are Lean `String`s; the string helpers below (lower-casing,
  whitespace splitting, substring test) are structural re-implementations of
  the Python primitives `str.lower()`, `str.split()` and `needle in hay`,
  written by structural recursion so that the kernel can evaluate them.
* Python floats are modelled as exact fractions (`Frac`, a numerator and a
  denominator over `Nat`); every float produced by the code is a ratio of
  small integers, and all operations the code performs on them
  (comparison, `max`, `int(x * k)`) are computed exactly on fractions.
* Python `int(x)` on a nonnegative float is truncation, i.e. `Nat` floor
  division of the fraction.
* The external `ytmusic.search` calls are inputs of the embedding: each of
  the three filter modes of one query either fails (the `except` branch,
  modelled as `none`) or returns a list of raw result records.
-/

/-- Python `needle in hay` (substring containment) on the character data of
the two strings. -/
def substrB (needle hay : String) : Bool :=
  (List.range (hay.data.length + 1)).any fun i =>
    ((hay.data.drop i).take needle.data.length) == needle.data

/-- Worker for `pySplit`: walk the characters, accumulating the current word
(in reverse); whitespace closes a word, empty pieces are dropped. -/
def wordsAux : List Char → List Char → List String
  | [], cur => if cur.isEmpty then [] else [⟨cur.reverse⟩]
  | c :: cs, cur =>
    if c.isWhitespace then
      if cur.isEmpty then wordsAux cs [] else ⟨cur.reverse⟩ :: wordsAux cs []
    else wordsAux cs (c :: cur)

/-- Python `str.split()` (no argument): split on whitespace runs, dropping
empty pieces. -/
def pySplit (s : String) : List String := wordsAux s.data []

/-- Python `str.lower()`, by mapping `Char.toLower` over the characters
(they agree on the ASCII text this code handles). -/
def lowerStr (s : String) : String := ⟨s.data.map Char.toLower⟩

/-- An exact nonnegative fraction, the model of the nonnegative Python
floats appearing in the scorer (similarities and word-match percentages).
The denominator is positive in every fraction the code constructs. -/
structure Frac where
  num : Nat
  den : Nat
deriving DecidableEq

/-- The rational value of a fraction. -/
def Frac.toRat (f : Frac) : ℚ := (f.num : ℚ) / (f.den : ℚ)

/-- Python `a < b` on the modelled floats (cross multiplication). -/
def fracLtB (a b : Frac) : Bool := decide (a.num * b.den < b.num * a.den)

/-- Python `max(a, b)`: returns `b` exactly when `a < b`. -/
def fracMax (a b : Frac) : Frac := if fracLtB a b then b else a

/-- Python `int(f * k)` for a nonnegative fraction `f` and a `Nat` literal
`k`: truncation toward zero, which is floor division here. -/
def fracScaled (f : Frac) (k : Nat) : Int := Int.ofNat (f.num * k / f.den)

/-- Number of elements of `set(ws1) & set(ws2)` (Python set intersection
cardinality). -/
def interCard (ws1 ws2 : List String) : Nat :=
  (ws1.dedup.filter (fun w => ws2.contains w)).length

/-- Number of elements of `set(ws1) | set(ws2)` (Python set union
cardinality). -/
def unionCard (ws1 ws2 : List String) : Nat := ((ws1 ++ ws2).dedup).length

/-- Length of the common prefix of two character lists. -/
def commonLen : List Char → List Char → Nat
  | a :: as, b :: bs => if a = b then commonLen as bs + 1 else 0
  | _, _ => 0

/-- `difflib.SequenceMatcher.find_longest_match` for the whole strings and
no junk: the triple `(i, j, k)` with `a[i:i+k] == b[j:j+k]`, `k` maximal,
then `i` minimal, then `j` minimal.  (The `autojunk` heuristic of
`difflib` only affects strings of length at least 200 and is not
modelled.) -/
def longestMatch (a b : List Char) : Nat × Nat × Nat :=
  ((List.range a.length).flatMap fun i =>
      (List.range b.length).map fun j => (i, j, commonLen (a.drop i) (b.drop j))).foldl
    (fun best c => if best.2.2 < c.2.2 then c else best) (0, 0, 0)

/-- Total size of the matching blocks of `difflib.SequenceMatcher`
(recursively take the longest match and recurse on both sides), driven by
a fuel argument that dominates the recursion depth. -/
def matchesFuel : Nat → List Char → List Char → Nat
  | 0, _, _ => 0
  | fuel + 1, a, b =>
    let m := longestMatch a b
    if m.2.2 = 0 then 0
    else
      matchesFuel fuel (a.take m.1) (b.take m.2.1) + m.2.2 +
        matchesFuel fuel (a.drop (m.1 + m.2.2)) (b.drop (m.2.1 + m.2.2))

/-- Total matched characters between two character lists. -/
def matchesTotal (a b : List Char) : Nat := matchesFuel (a.length + 1) a b

/-- `difflib.SequenceMatcher(None, s1, s2).ratio()`:
`2 * M / (len(s1) + len(s2))`, and `1.0` when both strings are empty. -/
def ratioFrac (s1 s2 : String) : Frac :=
  if s1.data.length + s2.data.length = 0 then ⟨1, 1⟩
  else ⟨2 * matchesTotal s1.data s2.data, s1.data.length + s2.data.length⟩

/-- `YouTubeMusicSearcher._calculate_similarity` (lines 510-537): exact
equality, then substring containment, then Jaccard word-set overlap, then
the sequence-matcher ratio on lower-cased inputs. -/
def calculate_similarity (str1 str2 : String) : Frac :=
  if str1 = str2 then ⟨1, 1⟩
  else if substrB str1 str2 || substrB str2 str1 then ⟨4, 5⟩
  else
    let words1 := pySplit str1
    let words2 := pySplit str2
    if words1 ≠ [] ∧ words2 ≠ [] then
      let i := interCard words1 words2
      let u := unionCard words1 words2
      if 0 < u then ⟨i, u⟩
      else ratioFrac (lowerStr str1) (lowerStr str2)
    else ratioFrac (lowerStr str1) (lowerStr str2)

/-- The `good_words` list of `_find_best_match` (line 370). -/
def good_words : List String := ["lyrics", "lyric video", "audio", "official audio"]

/-- The `bad_keywords` denylist of `_find_best_match` (lines 474-479). -/
def bad_keywords : List String :=
  ["sing-along", "sing along", "singalong",
   "karaoke", "instrumental", "remix",
   "cover", "nightcore", "slowed", "reverb",
   "8d audio", "bass boost", "sped up"]

/-- `track_words` (line 387): the words of the lower-cased track name of
length greater than 2. -/
def trackWords (track_lower : String) : List String :=
  (pySplit track_lower).filter (fun w => decide (2 < w.length))

/-- `matched_words` (line 389): how many track words occur in the
lower-cased candidate title. -/
def matchedWords (title track_lower : String) : Nat :=
  ((trackWords track_lower).filter (fun w => substrB w title)).length

/-- `match_percent` (line 390) as an exact fraction. -/
def matchPercent (title track_lower : String) : Frac :=
  ⟨matchedWords title track_lower, (trackWords track_lower).length⟩

/-- Track word coverage delta (lines 386-398): `-100` when the match
percentage is below one half, else `int(match_percent * 50)`; skipped when
there are no track words. -/
def coverageScore (title track_lower : String) : Int :=
  if trackWords track_lower ≠ [] then
    if fracLtB (matchPercent title track_lower) ⟨1, 2⟩ then -100
    else fracScaled (matchPercent title track_lower) 50
  else 0

/-- Artist presence delta (lines 400-407): `+20` when the lower-cased
artist occurs in the title or the uploader, else `-10`. -/
def artistPresenceScore (title uploader artist_lower : String) : Int :=
  if substrB artist_lower title || substrB artist_lower uploader then 20 else -10

/-- Duration delta (lines 409-424), evaluated only when both durations are
positive. -/
def durationScore (duration expected_duration : Nat) : Int :=
  if 0 < expected_duration ∧ 0 < duration then
    let dd := ((duration : Int) - (expected_duration : Int)).natAbs
    if dd ≤ 3 then 30 else if dd ≤ 10 then 20 else if dd ≤ 30 then 10 else -10
  else 0

/-- View-count delta (lines 426-439). -/
def viewScore (view_count : Nat) : Int :=
  if 1000000 ≤ view_count then 15
  else if 100000 ≤ view_count then 10
  else if 10000 ≤ view_count then 5
  else if 1000 ≤ view_count then 0
  else -5

/-- Good-keyword delta (lines 443-448): `+15` once, on the first of the
`good_words` contained in the title. -/
def goodWordScore (title : String) : Int :=
  if good_words.any (fun w => substrB w title) then 15 else 0

/-- Official-marker delta (lines 450-453). -/
def officialScore (title : String) : Int :=
  if substrB ("official") title && !(substrB ("music video") title)
      && !(substrB ("official video") title) then 10
  else 0

/-- Title similarity delta (lines 457-461): `int(sim * 50)`. -/
def titleSimScore (track_lower title : String) : Int :=
  fracScaled (calculate_similarity track_lower title) 50

/-- Artist similarity delta (lines 463-469): `int(max(sim_uploader,
sim_title) * 30)`. -/
def artistSimScore (artist_lower uploader title : String) : Int :=
  fracScaled
    (fracMax (calculate_similarity artist_lower uploader)
      (calculate_similarity artist_lower title)) 30

/-- Bad-keyword penalty (lines 481-484): `-50` for each denylisted keyword
contained in the title, folded over the denylist like the Python loop. -/
def badKeywordScore (title : String) : Int :=
  bad_keywords.foldl (fun s k => if substrB k title then s - 50 else s) 0

/-- Number of denylisted keywords contained in the title. -/
def countBadKeywords (title : String) : Nat :=
  (bad_keywords.filter (fun k => substrB k title)).length

/-- A candidate as built by `_search_with_query` (the `video_info`
dictionaries). -/
structure Candidate where
  id : String
  title : String
  duration : Nat
  uploader : String
  view_count : Nat
  url : String
  webpage_url : String
deriving DecidableEq

/-- The total score one iteration of the scoring loop of
`_find_best_match` (lines 374-486) assigns to a candidate. -/
def score_video (video : Candidate) (track_name artist_name : String)
    (expected_duration : Nat) : Int :=
  let title := lowerStr video.title
  let track_lower := lowerStr track_name
  let artist_lower := lowerStr artist_name
  let uploader := lowerStr video.uploader
  coverageScore title track_lower
    + artistPresenceScore title uploader artist_lower
    + durationScore video.duration expected_duration
    + viewScore video.view_count
    + goodWordScore title
    + officialScore title
    + titleSimScore track_lower title
    + artistSimScore artist_lower uploader title
    + badKeywordScore title

/-- An entry of `scored_videos` (lines 490-498). -/
structure ScoredCandidate where
  url : String
  title : String
  duration : Nat
  uploader : String
  view_count : Nat
  score : Int
  video_id : String
deriving DecidableEq

/-- Projection of a candidate and its score into a `scored_videos` entry;
`video.get('webpage_url') or video.get('url')` prefers a non-empty
`webpage_url`. -/
def toScored (video : Candidate) (s : Int) : ScoredCandidate :=
  { url := if video.webpage_url ≠ "" then video.webpage_url else video.url
    title := video.title
    duration := video.duration
    uploader := video.uploader
    view_count := video.view_count
    score := s
    video_id := video.id }

/-- The `scored_videos` list (lines 488-498): every candidate is scored and
kept exactly when its score reaches the strict minimum threshold 100. -/
def eligibleScored (videos : List Candidate) (track_name artist_name : String)
    (expected_duration : Nat) : List ScoredCandidate :=
  (videos.map fun v =>
      toScored v (score_video v track_name artist_name expected_duration)).filter
    fun s => decide (100 ≤ s.score)

/-- One step of Python `max(..., key=lambda x: x['score'])`: the running
best is replaced only by a strictly greater score, so the first maximum
wins. -/
def pickBest (best s : ScoredCandidate) : ScoredCandidate :=
  if best.score < s.score then s else best

/-- `_find_best_match` (lines 350-508). -/
def find_best_match (videos : List Candidate) (track_name artist_name : String)
    (expected_duration : Nat) : Option ScoredCandidate :=
  match eligibleScored videos track_name artist_name expected_duration with
  | [] => none
  | x :: xs => some (xs.foldl pickBest x)

/-- A raw record returned by `ytmusic.search`: an optional `videoId`, a
title (defaulted to the empty string), a duration in seconds (defaulted to
0) and the list of artist names. -/
structure RawResult where
  videoId : Option String
  title : String
  duration_seconds : Nat
  artists : List String
deriving DecidableEq

/-- `artists[0].get('name', '') if artists else ''`. -/
def rawUploader (r : RawResult) : String :=
  match r.artists with
  | [] => ""
  | a :: _ => a

/-- Mapping of one raw record to a candidate (the loop bodies of
`_search_with_query`): records with a missing or empty (falsy) `videoId`
are skipped, `view_count` is hard-coded to 0, and the URL is built from
the id. -/
def candidateOfRaw (r : RawResult) : Option Candidate :=
  match r.videoId with
  | none => none
  | some vid =>
    if vid = "" then none
    else
      let u := "https://music.youtube.com/watch?v=" ++ vid
      some { id := vid, title := r.title, duration := r.duration_seconds,
             uploader := rawUploader r, view_count := 0, url := u, webpage_url := u }

/-- The `songs` filter loop (lines 214-230): appends every mapped
candidate, with no duplicate check. -/
def addSongs (acc : List Candidate) (rs : List RawResult) : List Candidate :=
  rs.foldl
    (fun acc r =>
      match candidateOfRaw r with
      | none => acc
      | some c => acc ++ [c])
    acc

/-- The `videos` and unfiltered loops (lines 240-264 and 274-298): a
candidate whose id already occurs in the accumulator is skipped. -/
def addDedup (acc : List Candidate) (rs : List RawResult) : List Candidate :=
  rs.foldl
    (fun acc r =>
      match candidateOfRaw r with
      | none => acc
      | some c => if acc.any (fun v => v.id == c.id) then acc else acc ++ [c])
    acc

/-- The responses of the external catalog search for one query: each of
the three filter modes either fails (`none`, the logged `except` branch)
or returns its raw records. -/
structure SearchBackend where
  songs : Option (List RawResult)
  videos : Option (List RawResult)
  unfiltered : Option (List RawResult)

/-- `all_videos` after the `songs` filter loop. -/
def songsCands (b : SearchBackend) : List Candidate :=
  match b.songs with
  | none => []
  | some rs => addSongs [] rs

/-- `all_videos` after the `videos` filter loop. -/
def afterVideos (b : SearchBackend) : List Candidate :=
  match b.videos with
  | none => songsCands b
  | some rs => addDedup (songsCands b) rs

/-- `all_videos` after all three filter loops of `_search_with_query`
(lines 205-306). -/
def collectCandidates (b : SearchBackend) : List Candidate :=
  match b.unfiltered with
  | none => afterVideos b
  | some rs => addDedup (afterVideos b) rs

/-- `_search_with_query` (lines 178-320): collect candidates under the
three filter modes, return `None` when there are none, else the best
match. -/
def search_with_query (b : SearchBackend) (track_name artist_name : String)
    (duration_seconds : Nat) : Option ScoredCandidate :=
  let all_videos := collectCandidates b
  if all_videos.isEmpty then none
  else find_best_match all_videos track_name artist_name duration_seconds

/-- `HIGH_CONFIDENCE` (line 94). -/
def HIGH_CONFIDENCE : Int := 180

/-- The best-overall update of passes 2 and 3 (lines 139-140 and 161-162):
replace only when the new score is strictly greater. -/
def updateBest (best_overall : Option ScoredCandidate) (p : ScoredCandidate) :
    Option ScoredCandidate :=
  match best_overall with
  | none => some p
  | some b => if b.score < p.score then some p else some b

/-- Pass 3 of `search` (lines 148-172): never exits early; the final
result is the running best-overall. -/
def searchPass3 (best_overall : Option ScoredCandidate) (b3 : SearchBackend)
    (track_name artist_name : String) (d : Nat) : Option ScoredCandidate :=
  match search_with_query b3 track_name artist_name d with
  | none => best_overall
  | some p3 => updateBest best_overall p3

/-- Pass 2 of `search` (lines 126-146): update best-overall, return the
pass result at score 180 or above, else go on to pass 3. -/
def searchPass2 (best_overall : Option ScoredCandidate) (b2 b3 : SearchBackend)
    (track_name artist_name : String) (d : Nat) : Option ScoredCandidate :=
  match search_with_query b2 track_name artist_name d with
  | none => searchPass3 best_overall b3 track_name artist_name d
  | some p2 =>
    let bo := updateBest best_overall p2
    if HIGH_CONFIDENCE ≤ p2.score then some p2
    else searchPass3 bo b3 track_name artist_name d

/-- `search` (lines 50-176), with the responses of the three passes given
as inputs `b1`, `b2`, `b3`: pass 1 returns its result at score 180 or
above, else passes 2 and 3 run in order. -/
def search (b1 b2 b3 : SearchBackend) (track_name artist_name : String)
    (d : Nat) : Option ScoredCandidate :=
  match search_with_query b1 track_name artist_name d with
  | none => searchPass2 none b2 b3 track_name artist_name d
  | some p1 =>
    if HIGH_CONFIDENCE ≤ p1.score then some p1
    else searchPass2 (some p1) b2 b3 track_name artist_name d

/-- The coverage delta as the specification words it, with a literal
`round` (spec 4.4, "else `+round(f * 50)`"), for comparison with the
code. -/
def coverageScoreSpecRound (title track_lower : String) : Int :=
  if trackWords track_lower ≠ [] then
    if fracLtB (matchPercent title track_lower) ⟨1, 2⟩ then -100
    else round ((matchPercent title track_lower).toRat * 50)
  else 0

/-- The title-similarity delta as the specification words it
(spec 4.4, "`+round(sim * 50)`"). -/
def titleSimScoreSpecRound (track_lower title : String) : Int :=
  round ((calculate_similarity track_lower title).toRat * 50)

/-! ### Basic facts about fractions and the similarity primitive -/

theorem Frac.toRat_nonneg (f : Frac) : 0 ≤ f.toRat :=
  div_nonneg (Nat.cast_nonneg _) (Nat.cast_nonneg _)

theorem Frac.toRat_le_one (f : Frac) (h : f.num ≤ f.den) : f.toRat ≤ 1 := by
  rcases Nat.eq_zero_or_pos f.den with hd | hd
  · rw [Frac.toRat, hd]
    simp
  · rw [Frac.toRat, div_le_one (by exact_mod_cast hd)]
    exact_mod_cast h

theorem fracScaled_eq_floor (f : Frac) (k : Nat) : fracScaled f k = ⌊f.toRat * k⌋ := by
  rcases f with ⟨n, d⟩
  rw [fracScaled, Frac.toRat]
  rw [div_mul_eq_mul_div]
  rw [show ((n : ℚ) * k = ((n * k : Nat) : ℚ)) by push_cast; ring]
  rw [Rat.floor_natCast_div_natCast]
  rfl

theorem fracScaled_nonneg (f : Frac) (k : Nat) : 0 ≤ fracScaled f k :=
  Int.ofNat_nonneg _

theorem fracScaled_le (f : Frac) (k : Nat) (h : f.num ≤ f.den) :
    fracScaled f k ≤ (k : Int) := by
  rw [fracScaled_eq_floor]
  calc ⌊f.toRat * k⌋ ≤ ⌊(k : ℚ)⌋ := by
        apply Int.floor_le_floor
        calc f.toRat * k ≤ 1 * k :=
              mul_le_mul_of_nonneg_right (f.toRat_le_one h) (Nat.cast_nonneg k)
          _ = k := one_mul _
    _ = k := Int.floor_natCast k

theorem fracLtB_iff {a b : Frac} (ha : 0 < a.den) (hb : 0 < b.den) :
    fracLtB a b = true ↔ a.toRat < b.toRat := by
  rw [fracLtB, decide_eq_true_iff, Frac.toRat, Frac.toRat,
    div_lt_div_iff₀ (by exact_mod_cast ha) (by exact_mod_cast hb)]
  exact_mod_cast Iff.rfl

theorem fracMax_num_le_den {a b : Frac} (ha : a.num ≤ a.den) (hb : b.num ≤ b.den) :
    (fracMax a b).num ≤ (fracMax a b).den := by
  rw [fracMax]
  split <;> assumption

theorem fracMax_toRat {a b : Frac} (ha : 0 < a.den) (hb : 0 < b.den) :
    (fracMax a b).toRat = max a.toRat b.toRat := by
  rw [fracMax]
  by_cases h : fracLtB a b
  · rw [if_pos h, max_eq_right (le_of_lt ((fracLtB_iff ha hb).mp h))]
  · rw [if_neg h, max_eq_left]
    by_contra hlt
    exact h ((fracLtB_iff ha hb).mpr (lt_of_not_le hlt))

theorem commonLen_le_left : ∀ (a b : List Char), commonLen a b ≤ a.length := by
  intro a
  induction a with
  | nil => intro b; rw [commonLen.eq_def]; split <;> simp_all
  | cons x xs ih =>
    intro b
    cases b with
    | nil => rw [commonLen.eq_def]; simp
    | cons y ys =>
      rw [commonLen]
      split
      · simpa using Nat.succ_le_succ (ih ys)
      · exact Nat.zero_le _

theorem commonLen_le_right : ∀ (a b : List Char), commonLen a b ≤ b.length := by
  intro a
  induction a with
  | nil => intro b; rw [commonLen.eq_def]; split <;> simp_all
  | cons x xs ih =>
    intro b
    cases b with
    | nil => rw [commonLen.eq_def]; simp
    | cons y ys =>
      rw [commonLen]
      split
      · simpa using Nat.succ_le_succ (ih ys)
      · exact Nat.zero_le _

theorem foldl_choice_mem {α : Type} (p : α → α → Prop) [DecidableRel p]
    (l : List α) (init : α) :
    l.foldl (fun best c => if p best c then c else best) init = init ∨
      l.foldl (fun best c => if p best c then c else best) init ∈ l := by
  induction l generalizing init with
  | nil => exact Or.inl rfl
  | cons y ys ih =>
    simp only [List.foldl_cons]
    rcases ih (if p init y then y else init) with h | h
    · rw [h]
      by_cases hp : p init y
      · rw [if_pos hp]
        exact Or.inr (List.mem_cons_self _ _)
      · rw [if_neg hp]
        exact Or.inl rfl
    · exact Or.inr (List.mem_cons_of_mem _ h)

theorem longestMatch_bound (a b : List Char) :
    (longestMatch a b).1 + (longestMatch a b).2.2 ≤ a.length ∧
      (longestMatch a b).2.1 + (longestMatch a b).2.2 ≤ b.length := by
  rw [longestMatch]
  rcases foldl_choice_mem (fun best c : Nat × Nat × Nat => best.2.2 < c.2.2) _ (0, 0, 0)
    with h | h
  · rw [h]
    exact ⟨Nat.zero_le _, Nat.zero_le _⟩
  · rcases List.mem_flatMap.mp h with ⟨i, hi, hmem⟩
    rcases List.mem_map.mp hmem with ⟨j, hj, heq⟩
    rw [← heq]
    have hi' : i < a.length := List.mem_range.mp hi
    have hj' : j < b.length := List.mem_range.mp hj
    have h1 : commonLen (a.drop i) (b.drop j) ≤ a.length - i := by
      have := commonLen_le_left (a.drop i) (b.drop j)
      rwa [List.length_drop] at this
    have h2 : commonLen (a.drop i) (b.drop j) ≤ b.length - j := by
      have := commonLen_le_right (a.drop i) (b.drop j)
      rwa [List.length_drop] at this
    constructor <;> (simp only; omega)

theorem matchesFuel_le_left :
    ∀ (fuel : Nat) (a b : List Char), matchesFuel fuel a b ≤ a.length := by
  intro fuel
  induction fuel with
  | zero => intro a b; exact Nat.zero_le _
  | succ n ih =>
    intro a b
    have hb := longestMatch_bound a b
    rcases hlm : longestMatch a b with ⟨i, j, k⟩
    rw [hlm] at hb
    simp only [matchesFuel, hlm]
    split
    · exact Nat.zero_le _
    · have hA := ih (a.take i) (b.take j)
      have hB := ih (a.drop (i + k)) (b.drop (j + k))
      rw [List.length_take] at hA
      rw [List.length_drop] at hB
      have hmin : min i a.length ≤ i := Nat.min_le_left _ _
      simp only at hb
      omega

theorem matchesFuel_le_right :
    ∀ (fuel : Nat) (a b : List Char), matchesFuel fuel a b ≤ b.length := by
  intro fuel
  induction fuel with
  | zero => intro a b; exact Nat.zero_le _
  | succ n ih =>
    intro a b
    have hb := longestMatch_bound a b
    rcases hlm : longestMatch a b with ⟨i, j, k⟩
    rw [hlm] at hb
    simp only [matchesFuel, hlm]
    split
    · exact Nat.zero_le _
    · have hA := ih (a.take i) (b.take j)
      have hB := ih (a.drop (i + k)) (b.drop (j + k))
      rw [List.length_take] at hA
      rw [List.length_drop] at hB
      have hmin : min j b.length ≤ j := Nat.min_le_left _ _
      simp only at hb
      omega

theorem ratioFrac_num_le_den (s1 s2 : String) :
    (ratioFrac s1 s2).num ≤ (ratioFrac s1 s2).den := by
  rw [ratioFrac]
  split
  · exact le_refl 1
  · have h1 := matchesFuel_le_left (s1.data.length + 1) s1.data s2.data
    have h2 := matchesFuel_le_right (s1.data.length + 1) s1.data s2.data
    simp only [matchesTotal]
    omega

theorem ratioFrac_den_pos (s1 s2 : String) : 0 < (ratioFrac s1 s2).den := by
  rw [ratioFrac]
  split
  · exact Nat.one_pos
  · simp only
    omega

theorem interCard_le_unionCard (ws1 ws2 : List String) :
    interCard ws1 ws2 ≤ unionCard ws1 ws2 := by
  have hnd : (ws1.dedup.filter (fun w => ws2.contains w)).Nodup :=
    (List.nodup_dedup ws1).filter _
  have hsub : (ws1.dedup.filter (fun w => ws2.contains w)) ⊆ (ws1 ++ ws2).dedup := by
    intro x hx
    rw [List.mem_dedup]
    exact List.mem_append_left _ (List.mem_dedup.mp (List.mem_of_mem_filter hx))
  exact (hnd.subperm hsub).length_le

theorem sim_num_le_den (a b : String) :
    (calculate_similarity a b).num ≤ (calculate_similarity a b).den := by
  rw [calculate_similarity]
  split
  · exact le_refl 1
  split
  · exact Nat.le_succ 4
  dsimp only
  split
  · split
    · exact interCard_le_unionCard _ _
    · exact ratioFrac_num_le_den _ _
  · exact ratioFrac_num_le_den _ _

theorem sim_den_pos (a b : String) : 0 < (calculate_similarity a b).den := by
  rw [calculate_similarity]
  split
  · exact Nat.one_pos
  split
  · exact Nat.succ_pos 4
  dsimp only
  split
  · split
    · assumption
    · exact ratioFrac_den_pos _ _
  · exact ratioFrac_den_pos _ _

theorem sim_nonneg (a b : String) : 0 ≤ (calculate_similarity a b).toRat :=
  Frac.toRat_nonneg _

theorem sim_le_one (a b : String) : (calculate_similarity a b).toRat ≤ 1 :=
  Frac.toRat_le_one _ (sim_num_le_den a b)

/-! ### Bounds on the individual scoring criteria -/

theorem matchPercent_num_le_den (title track_lower : String) :
    (matchPercent title track_lower).num ≤ (matchPercent title track_lower).den :=
  List.length_filter_le _ _

theorem coverageScore_le (title track_lower : String) :
    coverageScore title track_lower ≤ 50 := by
  rw [coverageScore]
  split
  · split
    · omega
    · exact fracScaled_le _ _ (matchPercent_num_le_den title track_lower)
  · omega

theorem coverageScore_nonpos_of_lt (title track_lower : String)
    (hne : trackWords track_lower ≠ [])
    (hlt : fracLtB (matchPercent title track_lower) ⟨1, 2⟩ = true) :
    coverageScore title track_lower = -100 := by
  rw [coverageScore, if_pos hne, if_pos hlt]

theorem artistPresenceScore_le (title uploader artist_lower : String) :
    artistPresenceScore title uploader artist_lower ≤ 20 := by
  rw [artistPresenceScore]
  split <;> omega

theorem durationScore_le (duration expected : Nat) :
    durationScore duration expected ≤ 30 := by
  rw [durationScore]
  split
  · dsimp only
    split
    · omega
    split
    · omega
    split <;> omega
  · omega

theorem viewScore_le (vc : Nat) : viewScore vc ≤ 15 := by
  rw [viewScore]
  split
  · omega
  split
  · omega
  split
  · omega
  split <;> omega

theorem goodWordScore_le (title : String) : goodWordScore title ≤ 15 := by
  rw [goodWordScore]
  split <;> omega

theorem officialScore_le (title : String) : officialScore title ≤ 10 := by
  rw [officialScore]
  split <;> omega

theorem titleSimScore_le (track_lower title : String) :
    titleSimScore track_lower title ≤ 50 :=
  fracScaled_le _ _ (sim_num_le_den track_lower title)

theorem artistSimScore_le (artist_lower uploader title : String) :
    artistSimScore artist_lower uploader title ≤ 30 :=
  fracScaled_le _ _
    (fracMax_num_le_den (sim_num_le_den artist_lower uploader)
      (sim_num_le_den artist_lower title))

theorem foldl_badKeywords (title : String) :
    ∀ (l : List String) (s : Int),
      l.foldl (fun s k => if substrB k title then s - 50 else s) s =
        s - 50 * ((l.filter (fun k => substrB k title)).length : Int) := by
  intro l
  induction l with
  | nil => intro s; simp
  | cons k ks ih =>
    intro s
    rw [List.foldl_cons, List.filter_cons]
    by_cases h : substrB k title
    · rw [if_pos h, ih, if_pos h]
      rw [List.length_cons]
      push_cast
      ring
    · rw [if_neg h, ih, if_neg (by simpa using h)]

theorem badKeywordScore_eq (title : String) :
    badKeywordScore title = -50 * (countBadKeywords title : Int) := by
  rw [badKeywordScore, countBadKeywords, foldl_badKeywords]
  ring

theorem badKeywordScore_nonpos (title : String) : badKeywordScore title ≤ 0 := by
  rw [badKeywordScore_eq]
  have : (0 : Int) ≤ (countBadKeywords title : Int) := Int.ofNat_nonneg _
  nlinarith

theorem score_video_le (v : Candidate) (t a : String) (d : Nat) :
    score_video v t a d ≤ coverageScore (lowerStr v.title) (lowerStr t) + 170 := by
  rw [score_video]
  have h1 := artistPresenceScore_le (lowerStr v.title) (lowerStr v.uploader) (lowerStr a)
  have h2 := durationScore_le v.duration d
  have h3 := viewScore_le v.view_count
  have h4 := goodWordScore_le (lowerStr v.title)
  have h5 := officialScore_le (lowerStr v.title)
  have h6 := titleSimScore_le (lowerStr t) (lowerStr v.title)
  have h7 := artistSimScore_le (lowerStr a) (lowerStr v.uploader) (lowerStr v.title)
  have h8 := badKeywordScore_nonpos (lowerStr v.title)
  omega

/-! ### Facts about best-match selection -/

theorem foldl_pickBest_mem (x : ScoredCandidate) (xs : List ScoredCandidate) :
    xs.foldl pickBest x = x ∨ xs.foldl pickBest x ∈ xs := by
  induction xs generalizing x with
  | nil => exact Or.inl rfl
  | cons y ys ih =>
    rw [List.foldl_cons]
    rcases ih (pickBest x y) with h | h
    · rw [h, pickBest]
      split
      · exact Or.inr (List.mem_cons_self _ _)
      · exact Or.inl rfl
    · exact Or.inr (List.mem_cons_of_mem _ h)

theorem foldl_pickBest_init_le (x : ScoredCandidate) (xs : List ScoredCandidate) :
    x.score ≤ (xs.foldl pickBest x).score := by
  induction xs generalizing x with
  | nil => exact le_refl _
  | cons y ys ih =>
    rw [List.foldl_cons]
    refine le_trans ?_ (ih (pickBest x y))
    rw [pickBest]
    split <;> omega

theorem foldl_pickBest_first_max (x : ScoredCandidate) (xs : List ScoredCandidate) :
    ∃ l1 l2, x :: xs = l1 ++ (xs.foldl pickBest x) :: l2 ∧
      (∀ s ∈ l1, s.score < (xs.foldl pickBest x).score) ∧
      (∀ s ∈ l2, s.score ≤ (xs.foldl pickBest x).score) := by
  induction xs generalizing x with
  | nil => exact ⟨[], [], rfl, by simp, by simp⟩
  | cons y ys ih =>
    rw [List.foldl_cons, pickBest]
    by_cases hxy : x.score < y.score
    · rw [if_pos hxy]
      rcases ih y with ⟨l1, l2, heq, hl1, hl2⟩
      refine ⟨x :: l1, l2, by rw [List.cons_append, ← heq], ?_, hl2⟩
      intro s hs
      rcases List.mem_cons.mp hs with h | h
      · subst h
        exact lt_of_lt_of_le hxy (foldl_pickBest_init_le y ys)
      · exact hl1 s h
    · rw [if_neg hxy]
      rcases ih x with ⟨l1, l2, heq, hl1, hl2⟩
      cases l1 with
      | nil =>
        simp only [List.nil_append] at heq
        have hx : List.foldl pickBest x ys = x := by
          injection heq with h1 h2
          exact h1.symm
        have hys : ys = l2 := by
          injection heq with h1 h2
        refine ⟨[], y :: l2, ?_, by simp, ?_⟩
        · rw [List.nil_append, hx, ← hys]
        · intro s hs
          rcases List.mem_cons.mp hs with h | h
          · subst h
            rw [hx]
            omega
          · exact hl2 s h
      | cons z l1' =>
        have hz : z = x := by
          injection heq with h1 h2
          exact h1.symm
        subst hz
        have h2 : ys = l1' ++ (List.foldl pickBest z ys) :: l2 := by
          injection heq with h1 h2
        refine ⟨z :: y :: l1', l2, ?_, ?_, hl2⟩
        · conv_lhs => rw [h2]
          rfl
        · intro s hs
          rcases List.mem_cons.mp hs with h | h
          · subst h
            exact hl1 s (List.mem_cons_self _ _)
          · rcases List.mem_cons.mp h with h' | h'
            · subst h'
              have := hl1 z (List.mem_cons_self _ _)
              omega
            · exact hl1 s (List.mem_cons_of_mem _ h')

theorem mem_eligibleScored_score (videos : List Candidate) (t a : String) (d : Nat)
    (r : ScoredCandidate) (h : r ∈ eligibleScored videos t a d) : 100 ≤ r.score := by
  rw [eligibleScored] at h
  have := List.of_mem_filter h
  simpa using this

theorem find_best_match_some_ge (videos : List Candidate) (t a : String) (d : Nat)
    (r : ScoredCandidate) (h : find_best_match videos t a d = some r) :
    100 ≤ r.score := by
  rw [find_best_match] at h
  rcases heq : eligibleScored videos t a d with _ | ⟨x, xs⟩
  · rw [heq] at h
    exact absurd h (by simp)
  · rw [heq] at h
    have hr : r = xs.foldl pickBest x := by
      injection h with h1
      exact h1.symm
    subst hr
    rcases foldl_pickBest_mem x xs with hm | hm
    · rw [hm]
      exact mem_eligibleScored_score videos t a d x (heq ▸ List.mem_cons_self _ _)
    · exact mem_eligibleScored_score videos t a d _ (heq ▸ List.mem_cons_of_mem _ hm)

theorem eligibleScored_nil_of_lt (videos : List Candidate) (t a : String) (d : Nat)
    (h : ∀ v ∈ videos, score_video v t a d < 100) :
    eligibleScored videos t a d = [] := by
  rw [eligibleScored, List.filter_eq_nil_iff]
  intro s hs
  rcases List.mem_map.mp hs with ⟨v, hv, heq⟩
  have hsc : s.score = score_video v t a d := by
    rw [← heq]
    rfl
  simp only [decide_eq_true_eq]
  have := h v hv
  omega

theorem find_best_match_none_of_lt (videos : List Candidate) (t a : String) (d : Nat)
    (h : ∀ v ∈ videos, score_video v t a d < 100) :
    find_best_match videos t a d = none := by
  rw [find_best_match, eligibleScored_nil_of_lt videos t a d h]

theorem find_best_match_some_of_ge (videos : List Candidate) (t a : String) (d : Nat)
    (h : ∃ v ∈ videos, 100 ≤ score_video v t a d) :
    ∃ r, find_best_match videos t a d = some r := by
  rcases h with ⟨v, hv, hge⟩
  have hmem : toScored v (score_video v t a d) ∈ eligibleScored videos t a d := by
    rw [eligibleScored]
    apply List.mem_filter.mpr
    refine ⟨List.mem_map.mpr ⟨v, hv, rfl⟩, ?_⟩
    simpa using hge
  rw [find_best_match]
  rcases heq : eligibleScored videos t a d with _ | ⟨x, xs⟩
  · rw [heq] at hmem
    exact absurd hmem (List.not_mem_nil _)
  · exact ⟨xs.foldl pickBest x, rfl⟩

theorem search_with_query_some_ge (b : SearchBackend) (t a : String) (d : Nat)
    (r : ScoredCandidate) (h : search_with_query b t a d = some r) : 100 ≤ r.score := by
  rw [search_with_query] at h
  split at h
  · exact absurd h (by simp)
  · exact find_best_match_some_ge _ t a d r h

theorem search_with_query_none_of_lt (b : SearchBackend) (t a : String) (d : Nat)
    (h : ∀ v ∈ collectCandidates b, score_video v t a d < 100) :
    search_with_query b t a d = none := by
  rw [search_with_query]
  split
  · rfl
  · exact find_best_match_none_of_lt _ t a d h

theorem updateBest_cases (bo : Option ScoredCandidate) (p q : ScoredCandidate)
    (h : updateBest bo p = some q) : q = p ∨ bo = some q := by
  rcases bo with _ | b
  · rw [updateBest] at h
    injection h with h1
    exact Or.inl h1.symm
  · rw [updateBest] at h
    split at h
    · injection h with h1
      exact Or.inl h1.symm
    · injection h with h1
      exact Or.inr (by rw [h1])

theorem searchPass3_some_ge (bo : Option ScoredCandidate) (b3 : SearchBackend)
    (t a : String) (d : Nat) (r : ScoredCandidate)
    (hbo : ∀ x, bo = some x → 100 ≤ x.score)
    (h : searchPass3 bo b3 t a d = some r) : 100 ≤ r.score := by
  rw [searchPass3] at h
  rcases hq : search_with_query b3 t a d with _ | p3
  · rw [hq] at h
    exact hbo r h
  · rw [hq] at h
    rcases updateBest_cases bo p3 r h with h' | h'
    · subst h'
      exact search_with_query_some_ge b3 t a d r hq
    · exact hbo r h'

theorem searchPass2_some_ge (bo : Option ScoredCandidate) (b2 b3 : SearchBackend)
    (t a : String) (d : Nat) (r : ScoredCandidate)
    (hbo : ∀ x, bo = some x → 100 ≤ x.score)
    (h : searchPass2 bo b2 b3 t a d = some r) : 100 ≤ r.score := by
  rw [searchPass2] at h
  rcases hq : search_with_query b2 t a d with _ | p2
  · rw [hq] at h
    exact searchPass3_some_ge bo b3 t a d r hbo h
  · rw [hq] at h
    simp only at h
    split at h
    · injection h with h1
      subst h1
      exact search_with_query_some_ge b2 t a d _ hq
    · refine searchPass3_some_ge _ b3 t a d r ?_ h
      intro x hx
      rcases updateBest_cases bo p2 x hx with h' | h'
      · subst h'
        exact search_with_query_some_ge b2 t a d _ hq
      · exact hbo x h'

theorem search_some_ge (b1 b2 b3 : SearchBackend) (t a : String) (d : Nat)
    (r : ScoredCandidate) (h : search b1 b2 b3 t a d = some r) : 100 ≤ r.score := by
  rw [search] at h
  rcases hq : search_with_query b1 t a d with _ | p1
  · rw [hq] at h
    exact searchPass2_some_ge none b2 b3 t a d r (by intro x hx; cases hx) h
  · rw [hq] at h
    simp only at h
    split at h
    · injection h with h1
      subst h1
      exact search_with_query_some_ge b1 t a d _ hq
    · refine searchPass2_some_ge _ b2 b3 t a d r ?_ h
      intro x hx
      injection hx with h1
      subst h1
      exact search_with_query_some_ge b1 t a d _ hq

theorem search_none_of_all_lt (b1 b2 b3 : SearchBackend) (t a : String) (d : Nat)
    (h1 : ∀ v ∈ collectCandidates b1, score_video v t a d < 100)
    (h2 : ∀ v ∈ collectCandidates b2, score_video v t a d < 100)
    (h3 : ∀ v ∈ collectCandidates b3, score_video v t a d < 100) :
    search b1 b2 b3 t a d = none := by
  rw [search, search_with_query_none_of_lt b1 t a d h1]
  rw [searchPass2, search_with_query_none_of_lt b2 t a d h2]
  rw [searchPass3, search_with_query_none_of_lt b3 t a d h3]

/-! ### Facts about the candidate collector -/

theorem mem_addSongs (rs : List RawResult) (acc : List Candidate) (c : Candidate)
    (h : c ∈ addSongs acc rs) :
    c ∈ acc ∨ ∃ r ∈ rs, candidateOfRaw r = some c := by
  induction rs generalizing acc with
  | nil => exact Or.inl h
  | cons r rs' ih =>
    rw [addSongs, List.foldl_cons] at h
    rcases hr : candidateOfRaw r with _ | c'
    · rw [hr] at h
      rcases ih acc h with h' | ⟨r', hr', hc'⟩
      · exact Or.inl h'
      · exact Or.inr ⟨r', List.mem_cons_of_mem _ hr', hc'⟩
    · rw [hr] at h
      rcases ih (acc ++ [c']) h with h' | ⟨r', hr', hc'⟩
      · rcases List.mem_append.mp h' with h'' | h''
        · exact Or.inl h''
        · rcases List.mem_singleton.mp h'' with rfl
          exact Or.inr ⟨r, List.mem_cons_self _ _, hr⟩
      · exact Or.inr ⟨r', List.mem_cons_of_mem _ hr', hc'⟩

theorem mem_addDedup (rs : List RawResult) (acc : List Candidate) (c : Candidate)
    (h : c ∈ addDedup acc rs) :
    c ∈ acc ∨ ∃ r ∈ rs, candidateOfRaw r = some c := by
  induction rs generalizing acc with
  | nil => exact Or.inl h
  | cons r rs' ih =>
    rw [addDedup, List.foldl_cons] at h
    rcases hr : candidateOfRaw r with _ | c'
    · rw [hr] at h
      rcases ih acc h with h' | ⟨r', hr', hc'⟩
      · exact Or.inl h'
      · exact Or.inr ⟨r', List.mem_cons_of_mem _ hr', hc'⟩
    · rw [hr] at h
      simp only at h
      by_cases hdup : acc.any (fun v => v.id == c'.id)
      · rw [if_pos hdup] at h
        rcases ih acc h with h' | ⟨r', hr', hc'⟩
        · exact Or.inl h'
        · exact Or.inr ⟨r', List.mem_cons_of_mem _ hr', hc'⟩
      · rw [if_neg hdup] at h
        rcases ih (acc ++ [c']) h with h' | ⟨r', hr', hc'⟩
        · rcases List.mem_append.mp h' with h'' | h''
          · exact Or.inl h''
          · rcases List.mem_singleton.mp h'' with rfl
            exact Or.inr ⟨r, List.mem_cons_self _ _, hr⟩
        · exact Or.inr ⟨r', List.mem_cons_of_mem _ hr', hc'⟩

theorem candidateOfRaw_view_count (r : RawResult) (c : Candidate)
    (h : candidateOfRaw r = some c) : c.view_count = 0 := by
  rw [candidateOfRaw] at h
  rcases hv : r.videoId with _ | vid
  · rw [hv] at h
    exact absurd h (by simp)
  · rw [hv] at h
    simp only at h
    split at h
    · exact absurd h (by simp)
    · injection h with h1
      rw [← h1]

theorem mem_collect_view_count (b : SearchBackend) (c : Candidate)
    (h : c ∈ collectCandidates b) : c.view_count = 0 := by
  have base : ∀ c ∈ songsCands b, c.view_count = 0 := by
    intro c' hc'
    rw [songsCands] at hc'
    rcases hb : b.songs with _ | rs
    · rw [hb] at hc'
      exact absurd hc' (List.not_mem_nil _)
    · rw [hb] at hc'
      rcases mem_addSongs rs [] c' hc' with h' | ⟨r, _, hr⟩
      · exact absurd h' (List.not_mem_nil _)
      · exact candidateOfRaw_view_count r c' hr
  have mid : ∀ c ∈ afterVideos b, c.view_count = 0 := by
    intro c' hc'
    rw [afterVideos] at hc'
    rcases hb : b.videos with _ | rs
    · rw [hb] at hc'
      exact base c' hc'
    · rw [hb] at hc'
      rcases mem_addDedup rs (songsCands b) c' hc' with h' | ⟨r, _, hr⟩
      · exact base c' h'
      · exact candidateOfRaw_view_count r c' hr
  rw [collectCandidates] at h
  rcases hb : b.unfiltered with _ | rs
  · rw [hb] at h
    exact mid c h
  · rw [hb] at h
    rcases mem_addDedup rs (afterVideos b) c h with h' | ⟨r, _, hr⟩
    · exact mid c h'
    · exact candidateOfRaw_view_count r c hr

/-- One unfolding step of the dedup loop. -/
theorem addDedup_cons (acc : List Candidate) (r : RawResult) (rs : List RawResult) :
    addDedup acc (r :: rs) =
      addDedup
        (match candidateOfRaw r with
         | none => acc
         | some c => if acc.any (fun v => v.id == c.id) then acc else acc ++ [c]) rs := rfl

/-- One unfolding step of the songs loop. -/
theorem addSongs_cons (acc : List Candidate) (r : RawResult) (rs : List RawResult) :
    addSongs acc (r :: rs) =
      addSongs
        (match candidateOfRaw r with
         | none => acc
         | some c => acc ++ [c]) rs := rfl

theorem addDedup_extends (rs : List RawResult) (acc : List Candidate) :
    ∃ ext, addDedup acc rs = acc ++ ext := by
  induction rs generalizing acc with
  | nil => exact ⟨[], (List.append_nil acc).symm⟩
  | cons r rs' ih =>
    rw [addDedup_cons]
    rcases hr : candidateOfRaw r with _ | c
    · exact ih acc
    · dsimp only
      by_cases hd : acc.any (fun v => v.id == c.id)
      · rw [if_pos hd]
        exact ih acc
      · rw [if_neg hd]
        rcases ih (acc ++ [c]) with ⟨ext, hext⟩
        refine ⟨c :: ext, ?_⟩
        rw [hext, List.append_assoc]
        rfl

/-- Positions `n` and beyond of `l` hold pairwise-new ids: any element at
index at least `n` has an id different from every element before it. -/
def FreshFrom (l : List Candidate) (n : Nat) : Prop :=
  ∀ i j (hi : i < l.length) (hj : j < l.length), i < j → n ≤ j →
    (l.get ⟨i, hi⟩).id ≠ (l.get ⟨j, hj⟩).id

theorem freshFrom_append (l : List Candidate) (n : Nat) (c : Candidate)
    (h : FreshFrom l n) (hc : ∀ v ∈ l, v.id ≠ c.id) : FreshFrom (l ++ [c]) n := by
  intro i j hi hj hij hnj
  have hj' : j < l.length + 1 := by
    rw [List.length_append] at hj
    simpa using hj
  by_cases hjl : j < l.length
  · have hil : i < l.length := lt_trans hij hjl
    rw [List.get_eq_getElem, List.get_eq_getElem,
      List.getElem_append_left hil, List.getElem_append_left hjl]
    exact h i j hil hjl hij hnj
  · have hjeq : j = l.length := by omega
    have hil : i < l.length := by omega
    rw [List.get_eq_getElem, List.get_eq_getElem,
      List.getElem_append_left hil, List.getElem_concat_length l c j hjeq]
    exact hc _ (List.getElem_mem _)

theorem addDedup_fresh (rs : List RawResult) (acc : List Candidate) (n : Nat)
    (h : FreshFrom acc n) : FreshFrom (addDedup acc rs) n := by
  induction rs generalizing acc with
  | nil => exact h
  | cons r rs' ih =>
    rw [addDedup_cons]
    rcases hr : candidateOfRaw r with _ | c
    · exact ih acc h
    · dsimp only
      by_cases hd : acc.any (fun v => v.id == c.id)
      · rw [if_pos hd]
        exact ih acc h
      · rw [if_neg hd]
        refine ih (acc ++ [c]) (freshFrom_append acc n c h ?_)
        intro v hv hvc
        exact hd (List.any_eq_true.mpr ⟨v, hv, by rw [hvc]; exact beq_self_eq_true _⟩)

theorem songsCands_fresh (b : SearchBackend) :
    FreshFrom (songsCands b) (songsCands b).length := by
  intro i j hi hj hij hnj
  exact absurd (lt_of_le_of_lt hnj hj) (lt_irrefl _)

theorem afterVideos_fresh (b : SearchBackend) :
    FreshFrom (afterVideos b) (songsCands b).length := by
  rw [afterVideos]
  rcases hb : b.videos with _ | rs
  · exact songsCands_fresh b
  · exact addDedup_fresh rs _ _ (songsCands_fresh b)

theorem collect_fresh (b : SearchBackend) :
    FreshFrom (collectCandidates b) (songsCands b).length := by
  rw [collectCandidates]
  rcases hb : b.unfiltered with _ | rs
  · exact afterVideos_fresh b
  · exact addDedup_fresh rs _ _ (afterVideos_fresh b)

theorem afterVideos_extends (b : SearchBackend) :
    ∃ ext, afterVideos b = songsCands b ++ ext := by
  rw [afterVideos]
  rcases hb : b.videos with _ | rs
  · exact ⟨[], (List.append_nil _).symm⟩
  · exact addDedup_extends rs (songsCands b)

theorem collect_extends (b : SearchBackend) :
    ∃ ext, collectCandidates b = afterVideos b ++ ext := by
  rw [collectCandidates]
  rcases hb : b.unfiltered with _ | rs
  · exact ⟨[], (List.append_nil _).symm⟩
  · exact addDedup_extends rs (afterVideos b)

/-! ### Concrete inputs used by the witnesses -/

/-- A candidate scoring exactly 100 against track "aaa bbb", artist
"p q r s t u v", expected duration 0. -/
def candW100 : Candidate :=
  { id := "v100", title := "aaa bbb official audio", duration := 0,
    uploader := "vvvv", view_count := 0, url := "uA", webpage_url := "uA" }

/-- A candidate scoring exactly 99 against the same target. -/
def candW99 : Candidate :=
  { id := "v99", title := "aaa bbb audio", duration := 0,
    uploader := "p q r x y z", view_count := 0, url := "uB", webpage_url := "uB" }

/-- A raw record whose candidate scores 190 against track "aaa bbb audio",
artist "ccc", expected duration 200. -/
def rawW190 : RawResult :=
  { videoId := some ("v190"), title := "aaa bbb audio",
    duration_seconds := 200, artists := ["ccc"] }

/-- A one-hit songs response. -/
def backendW190 : SearchBackend :=
  { songs := some [rawW190], videos := none, unfiltered := none }

/-- A backend whose three filter modes all fail. -/
def backendEmpty : SearchBackend :=
  { songs := none, videos := none, unfiltered := none }

/-- The scored candidate built from `rawW190`. -/
def scoredW190 : ScoredCandidate :=
  { url := "https://music.youtube.com/watch?v=v190", title := "aaa bbb audio",
    duration := 200, uploader := "ccc", view_count := 0, score := 190,
    video_id := "v190" }

/-- A candidate covering 1 of the 3 words of track "aaa bbb ccc". -/
def candW33 : Candidate :=
  { id := "v33", title := "aaa zzz", duration := 0,
    uploader := "", view_count := 0, url := "uC", webpage_url := "uC" }

/-! ### The claims -/

/-- C1: a scored candidate is eligible for return only if its total score
is at least 100 (inclusive floor): a candidate reaching 100 yields a
returned match, every candidate below 100 is discarded, when every
candidate scores below 100 the match is `none`, and every result the
engine returns scores at least 100. -/
theorem C1_acceptance_floor (videos : List Candidate) (b1 b2 b3 : SearchBackend)
    (t a : String) (d : Nat) :
    (∀ r, find_best_match videos t a d = some r → 100 ≤ r.score) ∧
    ((∃ v ∈ videos, 100 ≤ score_video v t a d) →
      ∃ r, find_best_match videos t a d = some r) ∧
    ((∀ v ∈ videos, score_video v t a d < 100) →
      find_best_match videos t a d = none) ∧
    (∀ r, search b1 b2 b3 t a d = some r → 100 ≤ r.score) ∧
    ((∀ v ∈ collectCandidates b1, score_video v t a d < 100) →
      (∀ v ∈ collectCandidates b2, score_video v t a d < 100) →
      (∀ v ∈ collectCandidates b3, score_video v t a d < 100) →
      search b1 b2 b3 t a d = none) := by
  refine ⟨?_, ?_, ?_, ?_, ?_⟩
  · intro r h
    exact find_best_match_some_ge videos t a d r h
  · intro h
    exact find_best_match_some_of_ge videos t a d h
  · intro h
    exact find_best_match_none_of_lt videos t a d h
  · intro r h
    exact search_some_ge b1 b2 b3 t a d r h
  · intro h1 h2 h3
    exact search_none_of_all_lt b1 b2 b3 t a d h1 h2 h3

/-- C1 witness: at the boundary, 100 is accepted and 99 is rejected. -/
theorem C1_acceptance_floor_witness :
    score_video candW100 ("aaa bbb") ("p q r s t u v") 0 = 100 ∧
    score_video candW99 ("aaa bbb") ("p q r s t u v") 0 = 99 ∧
    (∃ r, find_best_match [candW100, candW99] ("aaa bbb") ("p q r s t u v") 0 = some r) ∧
    find_best_match [candW99] ("aaa bbb") ("p q r s t u v") 0 = none := by
  refine ⟨by decide, by decide, ?_, ?_⟩
  · exact (C1_acceptance_floor [candW100, candW99] backendEmpty backendEmpty backendEmpty
      ("aaa bbb") ("p q r s t u v") 0).2.1 ⟨candW100, by decide, by decide⟩
  · exact (C1_acceptance_floor [candW99] backendEmpty backendEmpty backendEmpty
      ("aaa bbb") ("p q r s t u v") 0).2.2.1 (by decide)

/-- C2: a pass-1 or pass-2 best with score at least 180 is returned at
once (independently of the later backends), a best of at most 179 lets
the search continue with the next pass, and pass 3 never exits early: its
result only replaces the running best-overall on a strictly greater
score. -/
theorem C2_early_termination (b1 b2 b3 : SearchBackend) (t a : String) (d : Nat) :
    (∀ r, search_with_query b1 t a d = some r → 180 ≤ r.score →
      search b1 b2 b3 t a d = some r) ∧
    (∀ r, search_with_query b1 t a d = some r → r.score ≤ 179 →
      search b1 b2 b3 t a d = searchPass2 (some r) b2 b3 t a d) ∧
    (∀ bo r2, search_with_query b2 t a d = some r2 → 180 ≤ r2.score →
      searchPass2 bo b2 b3 t a d = some r2) ∧
    (∀ bo r2, search_with_query b2 t a d = some r2 → r2.score ≤ 179 →
      searchPass2 bo b2 b3 t a d = searchPass3 (updateBest bo r2) b3 t a d) ∧
    (∀ bp r3, search_with_query b3 t a d = some r3 →
      (r3.score ≤ bp.score → searchPass3 (some bp) b3 t a d = some bp) ∧
      (bp.score < r3.score → searchPass3 (some bp) b3 t a d = some r3)) := by
  refine ⟨?_, ?_, ?_, ?_, ?_⟩
  · intro r h hge
    rw [search, h]
    simp only
    rw [if_pos (show HIGH_CONFIDENCE ≤ r.score from hge)]
  · intro r h hle
    rw [search, h]
    simp only
    rw [if_neg (show ¬ HIGH_CONFIDENCE ≤ r.score by rw [HIGH_CONFIDENCE]; omega)]
  · intro bo r2 h hge
    rw [searchPass2, h]
    simp only
    rw [if_pos (show HIGH_CONFIDENCE ≤ r2.score from hge)]
  · intro bo r2 h hle
    rw [searchPass2, h]
    simp only
    rw [if_neg (show ¬ HIGH_CONFIDENCE ≤ r2.score by rw [HIGH_CONFIDENCE]; omega)]
  · intro bp r3 h
    constructor
    · intro hle
      rw [searchPass3, h]
      simp only [updateBest]
      rw [if_neg (by omega)]
    · intro hlt
      rw [searchPass3, h]
      simp only [updateBest]
      rw [if_pos hlt]

/-- C2 witness: a pass-1 hit scoring 190 terminates the search at once. -/
theorem C2_early_termination_witness :
    search backendW190 backendEmpty backendEmpty ("aaa bbb audio") ("ccc") 200 =
      some scoredW190 :=
  (C2_early_termination backendW190 backendEmpty backendEmpty
    ("aaa bbb audio") ("ccc") 200).1 scoredW190 (by decide) (by decide)

/-- C3: when the target title has at least one word longer than 2
characters and fewer than half of those words occur in the candidate
title, the coverage delta is the hard penalty of -100 and the total score
cannot reach the acceptance floor of 100; with no such word the coverage
criterion contributes 0. -/
theorem C3_coverage_hard_penalty (v : Candidate) (t a : String) (d : Nat) :
    (trackWords (lowerStr t) ≠ [] →
      (matchPercent (lowerStr v.title) (lowerStr t)).toRat < 1 / 2 →
      coverageScore (lowerStr v.title) (lowerStr t) = -100 ∧
        score_video v t a d < 100) ∧
    (trackWords (lowerStr t) = [] →
      coverageScore (lowerStr v.title) (lowerStr t) = 0) := by
  constructor
  · intro hne hlt
    have hdpos : 0 < (matchPercent (lowerStr v.title) (lowerStr t)).den := by
      rw [matchPercent]
      exact List.length_pos.mpr hne
    have hhalf : (Frac.toRat ⟨1, 2⟩) = 1 / 2 := by
      rw [Frac.toRat]
      norm_num
    have hb : fracLtB (matchPercent (lowerStr v.title) (lowerStr t)) ⟨1, 2⟩ = true := by
      rw [fracLtB_iff hdpos (by norm_num), hhalf]
      exact hlt
    have hcov : coverageScore (lowerStr v.title) (lowerStr t) = -100 := by
      rw [coverageScore, if_pos hne, if_pos hb]
    refine ⟨hcov, ?_⟩
    have hle := score_video_le v t a d
    rw [hcov] at hle
    omega
  · intro hnil
    rw [coverageScore, if_neg (by rw [hnil]; exact fun h => h rfl)]

/-- C3 witness: coverage 1 of 3 gives -100 and keeps the total under 100;
a track with no word longer than 2 characters skips the criterion. -/
theorem C3_coverage_hard_penalty_witness :
    coverageScore (lowerStr candW33.title) (lowerStr ("aaa bbb ccc")) = -100 ∧
    score_video candW33 ("aaa bbb ccc") ("qqq") 0 < 100 ∧
    coverageScore (lowerStr candW33.title) (lowerStr ("a b")) = 0 := by
  have hmp : matchPercent (lowerStr candW33.title) (lowerStr ("aaa bbb ccc")) = ⟨1, 3⟩ := by
    decide
  have h1 := (C3_coverage_hard_penalty candW33 ("aaa bbb ccc") ("qqq") 0).1
    (by decide) (by rw [hmp, Frac.toRat]; norm_num)
  exact ⟨h1.1, h1.2, (C3_coverage_hard_penalty candW33 ("a b") ("qqq") 0).2 (by decide)⟩

/-- A raw record repeated twice in one songs response. -/
def rawDup : RawResult :=
  { videoId := some ("vdup"), title := "ttt", duration_seconds := 100, artists := [] }

/-- A backend whose songs mode returns the same record twice. -/
def backendDup : SearchBackend :=
  { songs := some [rawDup, rawDup], videos := some [], unfiltered := some [] }

/-- C4 counterexample: the songs loop has no duplicate check, so a
duplicated id inside the songs response survives collection, refuting
deduplication "within ... the three filter modes" as stated. -/
theorem C4_counterexample :
    (collectCandidates backendDup).map Candidate.id = [("vdup" : String), "vdup"] ∧
    ¬ ((collectCandidates backendDup).map Candidate.id).Nodup := by
  constructor <;> decide

/-- C4 (amended): candidates are returned in mode order (songs, then
videos, then unfiltered, each mode appending to the previous ones), and
every candidate appended by the videos or unfiltered loops has an id
different from every candidate before it (so deduplication holds within
and across those two modes, and against the songs mode); duplicates
inside the songs mode itself are not removed. -/
theorem C4_dedup_amended (b : SearchBackend) :
    (∃ e2 e3, afterVideos b = songsCands b ++ e2 ∧
      collectCandidates b = songsCands b ++ e2 ++ e3) ∧
    FreshFrom (collectCandidates b) (songsCands b).length := by
  refine ⟨?_, collect_fresh b⟩
  rcases afterVideos_extends b with ⟨e2, h2⟩
  rcases collect_extends b with ⟨e3, h3⟩
  exact ⟨e2, e3, h2, by rw [h3, h2]⟩

/-- A raw record with id vA. -/
def rawA : RawResult :=
  { videoId := some ("vA"), title := "t1", duration_seconds := 10, artists := [] }

/-- A raw record with id vB. -/
def rawB : RawResult :=
  { videoId := some ("vB"), title := "t2", duration_seconds := 20, artists := [] }

/-- A backend where the videos mode repeats the songs-mode id vA. -/
def backendW4 : SearchBackend :=
  { songs := some [rawA], videos := some [rawA, rawB], unfiltered := none }

/-- C4 witness: the cross-mode duplicate vA is discarded and the two kept
candidates have distinct ids. -/
theorem C4_dedup_amended_witness :
    (collectCandidates backendW4).map Candidate.id = [("vA" : String), "vB"] ∧
    ((collectCandidates backendW4).get ⟨0, by decide⟩).id ≠
      ((collectCandidates backendW4).get ⟨1, by decide⟩).id := by
  refine ⟨by decide, ?_⟩
  exact (C4_dedup_amended backendW4).2 0 1 (by decide) (by decide) (by decide) (by decide)

/-- C5: every candidate the collector builds has `view_count = 0` (all
three filter loops hard-code it), so the popularity criterion contributes
exactly -5 for every collected candidate and the positive view tiers are
unreachable through this collector. -/
theorem C5_collector_view_count (b : SearchBackend) :
    ∀ c ∈ collectCandidates b, c.view_count = 0 ∧ viewScore c.view_count = -5 := by
  intro c hc
  have h := mem_collect_view_count b c hc
  refine ⟨h, ?_⟩
  rw [h]
  decide

/-- C5 witness: the candidate collected from `backendW190` has view count
0 and popularity delta -5. -/
theorem C5_collector_view_count_witness :
    (collectCandidates backendW190).length = 1 ∧
    ((collectCandidates backendW190).get ⟨0, by decide⟩).view_count = 0 ∧
    viewScore ((collectCandidates backendW190).get ⟨0, by decide⟩).view_count = -5 := by
  refine ⟨by decide, ?_⟩
  exact C5_collector_view_count backendW190 _ (List.get_mem _ _ _)

/-- C6: the unwanted-version penalty is -50 per denylisted keyword present
(cumulative), so with every other criterion contribution equal, a title
containing exactly two denylisted keywords scores exactly 50 points lower
than a title containing exactly one. -/
theorem C6_denylist_additivity (v1 v2 : Candidate) (t a : String) (d : Nat)
    (hcov : coverageScore (lowerStr v1.title) (lowerStr t) =
      coverageScore (lowerStr v2.title) (lowerStr t))
    (hpres : artistPresenceScore (lowerStr v1.title) (lowerStr v1.uploader) (lowerStr a) =
      artistPresenceScore (lowerStr v2.title) (lowerStr v2.uploader) (lowerStr a))
    (hdur : durationScore v1.duration d = durationScore v2.duration d)
    (hview : viewScore v1.view_count = viewScore v2.view_count)
    (hgood : goodWordScore (lowerStr v1.title) = goodWordScore (lowerStr v2.title))
    (hoff : officialScore (lowerStr v1.title) = officialScore (lowerStr v2.title))
    (htsim : titleSimScore (lowerStr t) (lowerStr v1.title) =
      titleSimScore (lowerStr t) (lowerStr v2.title))
    (hasim : artistSimScore (lowerStr a) (lowerStr v1.uploader) (lowerStr v1.title) =
      artistSimScore (lowerStr a) (lowerStr v2.uploader) (lowerStr v2.title))
    (h1 : countBadKeywords (lowerStr v1.title) = 1)
    (h2 : countBadKeywords (lowerStr v2.title) = 2) :
    (∀ s : String, badKeywordScore s = -50 * (countBadKeywords s : Int)) ∧
    score_video v2 t a d = score_video v1 t a d - 50 := by
  refine ⟨badKeywordScore_eq, ?_⟩
  rw [score_video, score_video]
  rw [badKeywordScore_eq, badKeywordScore_eq, h1, h2]
  omega

/-- A candidate with one denylisted keyword in its title. -/
def candK1 : Candidate :=
  { id := "vk1", title := "zzz karaoke", duration := 0,
    uploader := "", view_count := 0, url := "uK1", webpage_url := "uK1" }

/-- A candidate with two denylisted keywords in its title. -/
def candK2 : Candidate :=
  { id := "vk2", title := "zzz karaoke instrumental", duration := 0,
    uploader := "", view_count := 0, url := "uK2", webpage_url := "uK2" }

/-- C6 witness: with every other contribution equal, the two-keyword title
scores exactly 50 below the one-keyword title. -/
theorem C6_denylist_additivity_witness :
    score_video candK2 ("ttt") ("qqq") 0 = score_video candK1 ("ttt") ("qqq") 0 - 50 :=
  (C6_denylist_additivity candK1 candK2 ("ttt") ("qqq") 0 (by decide) (by decide)
    (by decide) (by decide) (by decide) (by decide) (by decide) (by decide)
    (by decide) (by decide)).2

/-- C7 counterexample: at coverage fraction 3/4 (3 of 4 track words
matched) the code adds `int(37.5) = 37` while the claimed `round(f * 50)`
is 38, and likewise for a title similarity of 3/4; the fraction-scaled
deltas are not the rounded products. -/
theorem C7_counterexample :
    coverageScore (lowerStr ("aaa bbb ccc")) (lowerStr ("aaa bbb ccc ddd")) = 37 ∧
    coverageScoreSpecRound (lowerStr ("aaa bbb ccc")) (lowerStr ("aaa bbb ccc ddd")) = 38 ∧
    coverageScore (lowerStr ("aaa bbb ccc")) (lowerStr ("aaa bbb ccc ddd")) ≠
      coverageScoreSpecRound (lowerStr ("aaa bbb ccc")) (lowerStr ("aaa bbb ccc ddd")) ∧
    titleSimScore ("a b c") ("c b a d") = 37 ∧
    titleSimScoreSpecRound ("a b c") ("c b a d") = 38 := by
  have hmp : matchPercent (lowerStr ("aaa bbb ccc")) (lowerStr ("aaa bbb ccc ddd")) =
      ⟨3, 4⟩ := by decide
  have h37 : coverageScore (lowerStr ("aaa bbb ccc")) (lowerStr ("aaa bbb ccc ddd")) = 37 := by
    decide
  have h38 : coverageScoreSpecRound (lowerStr ("aaa bbb ccc")) (lowerStr ("aaa bbb ccc ddd")) =
      38 := by
    rw [coverageScoreSpecRound, if_pos (by decide), if_neg (by rw [hmp]; decide), hmp]
    rw [show ((Frac.toRat ⟨3, 4⟩) * 50 = (75 : ℚ) / 2) by norm_num [Frac.toRat]]
    rw [round_eq]
    norm_num
  have hsim : calculate_similarity ("a b c") ("c b a d") = ⟨3, 4⟩ := by decide
  refine ⟨h37, h38, by rw [h37, h38]; decide, by decide, ?_⟩
  rw [titleSimScoreSpecRound, hsim]
  rw [show ((Frac.toRat ⟨3, 4⟩) * 50 = (75 : ℚ) / 2) by norm_num [Frac.toRat]]
  rw [round_eq]
  norm_num

/-- C7 (amended): the fraction-scaled deltas are the truncated (floor)
products: coverage contributes the floor of `f * 50` when `f` is at least
one half, title similarity the floor of `sim * 50`, and performer
similarity the floor of `max(sim_uploader, sim_title) * 30`. -/
theorem C7_truncated_deltas (title track_lower s1 s2 ar up : String) :
    (trackWords track_lower ≠ [] →
      fracLtB (matchPercent title track_lower) ⟨1, 2⟩ = false →
      coverageScore title track_lower = ⌊(matchPercent title track_lower).toRat * 50⌋) ∧
    titleSimScore s1 s2 = ⌊(calculate_similarity s1 s2).toRat * 50⌋ ∧
    artistSimScore ar up title =
      ⌊max ((calculate_similarity ar up).toRat) ((calculate_similarity ar title).toRat)
        * 30⌋ := by
  refine ⟨?_, ?_, ?_⟩
  · intro hne hlt
    rw [coverageScore, if_pos hne, if_neg (by rw [hlt]; exact Bool.false_ne_true)]
    exact fracScaled_eq_floor _ 50
  · rw [titleSimScore]
    exact fracScaled_eq_floor _ 50
  · rw [artistSimScore, fracScaled_eq_floor,
      fracMax_toRat (sim_den_pos ar up) (sim_den_pos ar title)]
    norm_num

/-- C7 witness: the floored deltas at the concrete 3/4 inputs. -/
theorem C7_truncated_deltas_witness :
    coverageScore (lowerStr ("aaa bbb ccc")) (lowerStr ("aaa bbb ccc ddd")) =
      ⌊(matchPercent (lowerStr ("aaa bbb ccc")) (lowerStr ("aaa bbb ccc ddd"))).toRat * 50⌋ ∧
    titleSimScore ("a b c") ("c b a d") =
      ⌊(calculate_similarity ("a b c") ("c b a d")).toRat * 50⌋ := by
  refine ⟨(C7_truncated_deltas (lowerStr ("aaa bbb ccc")) (lowerStr ("aaa bbb ccc ddd"))
    ("x") ("y") ("x") ("y")).1 (by decide) (by decide), ?_⟩
  exact (C7_truncated_deltas ("tt") ("tt") ("a b c") ("c b a d") ("x") ("y")).2.1

theorem unionCard_pos (ws1 ws2 : List String) (h : ws1 ≠ []) :
    0 < unionCard ws1 ws2 := by
  rcases ws1 with _ | ⟨w, ws⟩
  · exact absurd rfl h
  · rw [unionCard]
    have hm : w ∈ ((w :: ws) ++ ws2).dedup :=
      List.mem_dedup.mpr (List.mem_append_left _ (List.mem_cons_self _ _))
    exact List.length_pos.mpr (List.ne_nil_of_mem hm)

/-- C8: the similarity of any two strings lies in [0, 1] and is decided by
the first applicable rule in order: case-sensitive equality gives 1,
substring containment in either direction gives 4/5, two non-empty
whitespace word sets give the Jaccard overlap, and otherwise the
sequence-matcher ratio of the lower-cased strings is returned. -/
theorem C8_similarity_contract (a b : String) :
    (0 ≤ (calculate_similarity a b).toRat ∧ (calculate_similarity a b).toRat ≤ 1) ∧
    (a = b → (calculate_similarity a b).toRat = 1) ∧
    (a ≠ b → (substrB a b || substrB b a) = true →
      (calculate_similarity a b).toRat = 4 / 5) ∧
    (a ≠ b → (substrB a b || substrB b a) = false →
      pySplit a ≠ [] → pySplit b ≠ [] →
      (calculate_similarity a b).toRat =
        (interCard (pySplit a) (pySplit b) : ℚ) / (unionCard (pySplit a) (pySplit b) : ℚ)) ∧
    (a ≠ b → (substrB a b || substrB b a) = false →
      (pySplit a = [] ∨ pySplit b = []) →
      (calculate_similarity a b).toRat = (ratioFrac (lowerStr a) (lowerStr b)).toRat) := by
  refine ⟨⟨sim_nonneg a b, sim_le_one a b⟩, ?_, ?_, ?_, ?_⟩
  · intro h
    rw [calculate_similarity, if_pos h, Frac.toRat]
    norm_num
  · intro hne hs
    rw [calculate_similarity, if_neg hne, if_pos hs, Frac.toRat]
    norm_num
  · intro hne hs ha hb
    rw [calculate_similarity, if_neg hne, if_neg (by rw [hs]; exact Bool.false_ne_true)]
    dsimp only
    rw [if_pos ⟨ha, hb⟩, if_pos (unionCard_pos (pySplit a) (pySplit b) ha), Frac.toRat]
  · intro hne hs hor
    rw [calculate_similarity, if_neg hne, if_neg (by rw [hs]; exact Bool.false_ne_true)]
    dsimp only
    rw [if_neg]
    intro hand
    rcases hor with h | h
    · exact hand.1 h
    · exact hand.2 h

/-- C8 witness: two word-overlapping strings hit the Jaccard rule with
value 1/3, inside [0, 1]. -/
theorem C8_similarity_contract_witness :
    (calculate_similarity ("ab cd") ("cd ef")).toRat = (1 : ℚ) / 3 ∧
    0 ≤ (calculate_similarity ("ab cd") ("cd ef")).toRat ∧
    (calculate_similarity ("ab cd") ("cd ef")).toRat ≤ 1 := by
  have h := (C8_similarity_contract ("ab cd") ("cd ef")).2.2.2.1
    (by decide) (by decide) (by decide) (by decide)
  have hi : interCard (pySplit ("ab cd")) (pySplit ("cd ef")) = 1 := by decide
  have hu : unionCard (pySplit ("ab cd")) (pySplit ("cd ef")) = 3 := by decide
  rw [hi, hu] at h
  refine ⟨by rw [h]; norm_num, (C8_similarity_contract ("ab cd") ("cd ef")).1.1,
    (C8_similarity_contract ("ab cd") ("cd ef")).1.2⟩

theorem search_with_query_none_of_empty (b : SearchBackend) (t a : String) (d : Nat)
    (h : collectCandidates b = []) : search_with_query b t a d = none := by
  rw [search_with_query]
  rw [if_pos (by rw [h]; rfl)]

/-- C9: when every collected candidate of all three passes scores below
100, or when every pass collects nothing, the engine returns `none` as an
ordinary outcome (the embedding is a total function, so no exception
reaches the caller); a failed filter mode contributes exactly the same
candidates as a mode that returned an empty list, so it aborts neither the
remaining modes nor the remaining passes. -/
theorem C9_absence_is_normal (b1 b2 b3 : SearchBackend) (t a : String) (d : Nat)
    (sm vm um : Option (List RawResult)) :
    ((∀ c, (c ∈ collectCandidates b1 ∨ c ∈ collectCandidates b2 ∨
        c ∈ collectCandidates b3) → score_video c t a d < 100) →
      search b1 b2 b3 t a d = none) ∧
    (collectCandidates b1 = [] → collectCandidates b2 = [] →
      collectCandidates b3 = [] → search b1 b2 b3 t a d = none) ∧
    (collectCandidates { songs := none, videos := vm, unfiltered := um } =
      collectCandidates { songs := some [], videos := vm, unfiltered := um }) ∧
    (collectCandidates { songs := sm, videos := none, unfiltered := um } =
      collectCandidates { songs := sm, videos := some [], unfiltered := um }) ∧
    (collectCandidates { songs := sm, videos := vm, unfiltered := none } =
      collectCandidates { songs := sm, videos := vm, unfiltered := some [] }) := by
  refine ⟨?_, ?_, ?_, ?_, ?_⟩
  · intro h
    exact search_none_of_all_lt b1 b2 b3 t a d
      (fun v hv => h v (Or.inl hv))
      (fun v hv => h v (Or.inr (Or.inl hv)))
      (fun v hv => h v (Or.inr (Or.inr hv)))
  · intro h1 h2 h3
    rw [search, search_with_query_none_of_empty b1 t a d h1]
    rw [searchPass2, search_with_query_none_of_empty b2 t a d h2]
    rw [searchPass3, search_with_query_none_of_empty b3 t a d h3]
  · rfl
  · rcases sm with _ | rs <;> rfl
  · rcases sm with _ | rs <;> rcases vm with _ | rs' <;> rfl

/-- A raw record whose candidate scores 99 against track "aaa bbb",
artist "p q r s t u v", expected duration 0. -/
def rawW99 : RawResult :=
  { videoId := some ("v99"), title := "aaa bbb audio",
    duration_seconds := 0, artists := ["p q r x y z"] }

/-- A backend whose songs mode returns only the 99-point candidate. -/
def backendW99 : SearchBackend :=
  { songs := some [rawW99], videos := none, unfiltered := none }

/-- C9 witness: all passes empty gives `none`, and a single below-floor
candidate in pass 1 still gives `none`. -/
theorem C9_absence_is_normal_witness :
    search backendEmpty backendEmpty backendEmpty ("aaa bbb") ("p q r s t u v") 0 = none ∧
    search backendW99 backendEmpty backendEmpty ("aaa bbb") ("p q r s t u v") 0 = none := by
  constructor
  · exact (C9_absence_is_normal backendEmpty backendEmpty backendEmpty
      ("aaa bbb") ("p q r s t u v") 0 none none none).2.1 (by decide) (by decide) (by decide)
  · refine (C9_absence_is_normal backendW99 backendEmpty backendEmpty
      ("aaa bbb") ("p q r s t u v") 0 none none none).1 ?_
    intro c hc
    rcases hc with h | h | h
    · have hc' : c ∈ collectCandidates backendW99 := h
      have : collectCandidates backendW99 =
          [{ id := "v99", title := "aaa bbb audio", duration := 0,
             uploader := "p q r x y z", view_count := 0,
             url := "https://music.youtube.com/watch?v=v99",
             webpage_url := "https://music.youtube.com/watch?v=v99" }] := by decide
      rw [this] at hc'
      rcases List.mem_singleton.mp hc' with rfl
      decide
    · exact absurd h (List.not_mem_nil c)
    · exact absurd h (List.not_mem_nil c)

/-- C10: within a pass the returned best is a maximum of the eligible
list and every eligible candidate strictly before it scores strictly
lower (first-seen order wins ties); across passes a later pass replaces
the running best only on a strictly greater score, so an exact tie keeps
the earlier pass. -/
theorem C10_tie_break (videos : List Candidate) (b1 b2 b3 : SearchBackend)
    (t a : String) (d : Nat) :
    (∀ r, find_best_match videos t a d = some r →
      ∃ l1 l2, eligibleScored videos t a d = l1 ++ r :: l2 ∧
        (∀ s ∈ l1, s.score < r.score) ∧ (∀ s ∈ l2, s.score ≤ r.score)) ∧
    (∀ r1 r2, search_with_query b1 t a d = some r1 → r1.score ≤ 179 →
      search_with_query b2 t a d = some r2 → r2.score ≤ 179 →
      collectCandidates b3 = [] →
      (r2.score ≤ r1.score → search b1 b2 b3 t a d = some r1) ∧
      (r1.score < r2.score → search b1 b2 b3 t a d = some r2)) := by
  constructor
  · intro r h
    rw [find_best_match] at h
    rcases heq : eligibleScored videos t a d with _ | ⟨x, xs⟩
    · rw [heq] at h
      exact absurd h (by simp)
    · rw [heq] at h
      have hr : r = xs.foldl pickBest x := by
        injection h with h1
        exact h1.symm
      subst hr
      rcases foldl_pickBest_first_max x xs with ⟨l1, l2, hsplit, hl1, hl2⟩
      exact ⟨l1, l2, hsplit, hl1, hl2⟩
  · intro r1 r2 h1 hle1 h2 hle2 h3
    have hstep : search b1 b2 b3 t a d = searchPass3 (updateBest (some r1) r2) b3 t a d := by
      rw [search, h1]
      simp only
      rw [if_neg (show ¬ HIGH_CONFIDENCE ≤ r1.score by rw [HIGH_CONFIDENCE]; omega)]
      rw [searchPass2, h2]
      simp only
      rw [if_neg (show ¬ HIGH_CONFIDENCE ≤ r2.score by rw [HIGH_CONFIDENCE]; omega)]
    have hp3 : ∀ bo, searchPass3 bo b3 t a d = bo := by
      intro bo
      rw [searchPass3, search_with_query_none_of_empty b3 t a d h3]
    constructor
    · intro hms
      rw [hstep, hp3, updateBest, if_neg (by omega)]
    · intro hms
      rw [hstep, hp3, updateBest, if_pos hms]

/-- A raw record with id vT1 whose candidate scores 100. -/
def rawT1 : RawResult :=
  { videoId := some ("vT1"), title := "aaa bbb official audio",
    duration_seconds := 0, artists := ["vvvv"] }

/-- A raw record with id vT2 whose candidate also scores 100. -/
def rawT2 : RawResult :=
  { videoId := some ("vT2"), title := "aaa bbb official audio",
    duration_seconds := 0, artists := ["vvvv"] }

/-- The pass-1 backend of the tie witness. -/
def backendT1 : SearchBackend :=
  { songs := some [rawT1], videos := none, unfiltered := none }

/-- The pass-2 backend of the tie witness. -/
def backendT2 : SearchBackend :=
  { songs := some [rawT2], videos := none, unfiltered := none }

/-- The scored candidate built from `rawT1`. -/
def scoredT1 : ScoredCandidate :=
  { url := "https://music.youtube.com/watch?v=vT1", title := "aaa bbb official audio",
    duration := 0, uploader := "vvvv", view_count := 0, score := 100,
    video_id := "vT1" }

/-- The scored candidate built from `rawT2`. -/
def scoredT2 : ScoredCandidate :=
  { url := "https://music.youtube.com/watch?v=vT2", title := "aaa bbb official audio",
    duration := 0, uploader := "vvvv", view_count := 0, score := 100,
    video_id := "vT2" }

/-- C10 witness: passes 1 and 2 both score 100; the exact tie keeps the
pass-1 candidate. -/
theorem C10_tie_break_witness :
    search backendT1 backendT2 backendEmpty ("aaa bbb") ("p q r s t u v") 0 =
      some scoredT1 :=
  ((C10_tie_break [] backendT1 backendT2 backendEmpty ("aaa bbb") ("p q r s t u v") 0).2
    scoredT1 scoredT2
    (by decide) (by decide) (by decide) (by decide) (by decide)).1 (by decide)
